import Mathlib

/-!
Shallow embedding of `paasta_tools/contrib/graceful_container_drain.py`.

Strings from the source are modelled as `List Char`, so that Python's
`kv.split("=", 1)` and `output.split("\n")` can be embedded faithfully.
The virtual clock `t` and all sleep durations are `Int` (the sentinel
last-kill time is `-1000`, so the gap arithmetic is over integers).

External collaborators are parameters:
  * the smartstack YAML files read by `get_proxy_port` become a function
    from service name to the optional per-instance `proxy_port` table;
  * `docker inspect` becomes a function from container id to its `Env`
    array (the claims under study do not involve an inspect failure);
  * `random.shuffle` becomes an arbitrary reordering function, so every
    theorem quantifying over the container list covers every interleaving
    the random ordering can produce.
-/

set_option autoImplicit false

/-- Python `str.rstrip()` whitespace test for the characters that can occur
here (ASCII whitespace). -/
def isPySpace (c : Char) : Bool :=
  c = ' ' || c = '\t' || c = '\n' || c = '\r' || c = '\x0b' || c = '\x0c'

/-- Python `str.rstrip()`: drop trailing whitespace. -/
def rstrip (s : List Char) : List Char :=
  (s.reverse.dropWhile isPySpace).reverse

/-- Python `s.split(sep)` for a one-character separator: on the empty string
it returns `[""]`, mirroring `"".split("\n") == [""]`. -/
def splitOnChar (sep : Char) : List Char → List (List Char)
  | [] => [[]]
  | c :: rest =>
    if c = sep then [] :: splitOnChar sep rest
    else
      match splitOnChar sep rest with
      | [] => [[c]]
      | l :: ls => (c :: l) :: ls

/-- Python `kv.split("=", 1)` followed by the 2-tuple unpacking in
`docker_env_to_dict`: `some (k, v)` when `kv` contains an `=` (split at the
first one), `none` when it does not (the unpacking raises `ValueError`). -/
def splitFirstEq : List Char → Option (List Char × List Char)
  | [] => none
  | c :: rest =>
    if c = '=' then some ([], rest)
    else
      match splitFirstEq rest with
      | none => none
      | some (k, v) => some (c :: k, v)

/-- Assoc-list lookup with the most recent binding first; used to model a
Python `dict` built by repeated assignment (`environment[k] = v`). -/
def assoc_get {β : Type} : List (List Char × β) → List Char → Option β
  | [], _ => none
  | (k2, v) :: rest, k => if k2 = k then some v else assoc_get rest k

/-- Loop of `docker_env_to_dict`: each new binding is pushed in front of the
accumulator, so `assoc_get` sees the latest assignment first, exactly like
`environment[k] = v` overwriting a Python dict entry. A `kv` with no `=`
makes the whole call fail (`ValueError` in the source). -/
def docker_env_to_dict_go (acc : List (List Char × List Char)) :
    List (List Char) → Option (List (List Char × List Char))
  | [] => some acc
  | kv :: rest =>
    match splitFirstEq kv with
    | none => none
    | some (k, v) => docker_env_to_dict_go ((k, v) :: acc) rest

/-- `docker_env_to_dict` (source lines 77-82). -/
def docker_env_to_dict (environment_array : List (List Char)) :
    Option (List (List Char × List Char)) :=
  docker_env_to_dict_go [] environment_array

def PAASTA_SERVICE : List Char := "PAASTA_SERVICE".toList
def PAASTA_INSTANCE : List Char := "PAASTA_INSTANCE".toList
def MARATHON_PORT : List Char := "MARATHON_PORT".toList

/-- `has_all_paasta_env` (source lines 108-112): all three keys present. -/
def has_all_paasta_env (environment : List (List Char × List Char)) : Bool :=
  (assoc_get environment PAASTA_SERVICE).isSome &&
    (assoc_get environment PAASTA_INSTANCE).isSome &&
    (assoc_get environment MARATHON_PORT).isSome

/-- The smartstack YAML files on disk, as read by `get_proxy_port`:
`none` when `/nail/etc/services/<service>/smartstack.yaml` does not exist,
otherwise the mapping instance name to the optional `proxy_port` field of
that instance's stanza. -/
def SmartstackFS : Type := List Char → Option (List (List Char × Option Int))

/-- `get_proxy_port` (source lines 85-93): `none` when the file is missing,
the instance is not in the data, or the stanza has no `proxy_port`. -/
def get_proxy_port (fs : SmartstackFS) (service_name instance_name : List Char) :
    Option Int :=
  match fs service_name with
  | none => none
  | some data =>
    match assoc_get data instance_name with
    | none => none
    | some proxy_port => proxy_port

/-- One entry of `drained_apps`: `(t_killed, service, instance)`. -/
structure DrainRec where
  t : Int
  service : List Char
  instanceName : List Char
deriving DecidableEq

/-- Helper for `get_last_killed`: first match in the already-reversed list. -/
def get_last_killed_go (s i : List Char) : List DrainRec → Int
  | [] => -1000
  | d :: ds => if d.service = s ∧ d.instanceName = i then d.t else get_last_killed_go s i ds

/-- `get_last_killed` (source lines 96-105): walk `drained_apps` backwards,
return the time of the first (= most recent) record of `(service, instance)`,
and `-1000` when there is none. -/
def get_last_killed (drained_apps : List DrainRec) (service instanceName : List Char) : Int :=
  get_last_killed_go service instanceName drained_apps.reverse

/-- The mutable state of `main`'s loop: the virtual clock `t` (starts at 0)
and the `drained_apps` history. -/
structure DrainState where
  t : Int
  drained : List DrainRec
deriving DecidableEq

def smartstack_grace_sleep : Int := 10
def between_containers_grace_sleep : Int := 10
def min_kill_interval : Int := 60
def hadown_expire_in_seconds : Int := 120

/-- One discovered container: its id and the raw `Config.Env` array from
`docker inspect`. -/
structure Container where
  cid : List Char
  env : List (List Char)
deriving DecidableEq

/-- One printed line of the plan, structurally.  `header` and `info` are the
two `#`-comment lines; `info` is the only place the proxy port appears.
`routeOut`/`routeIn` are the `hadown`/`haup` commands: both are built from
`MARATHON_PORT` (the `marathonPort` field), never from the proxy port. -/
inductive DrainAction where
  | header (service instanceName : List Char)
  | info (cid service instanceName : List Char) (proxyPort : Option Int) (marathonPort : List Char)
  | warnSkip (cid : List Char)
  | routeOut (marathonPort : List Char) (service instanceName : List Char) (expire : Int)
  | sleep (n : Int)
  | kill (cid : List Char)
  | routeIn (marathonPort : List Char) (service instanceName : List Char)
  | blank
deriving DecidableEq

/-- The body of `main`'s per-container loop (source lines 139-171), minus the
`docker inspect` subprocess call.  `none` models the run dying on the uncaught
`ValueError` from `docker_env_to_dict`; a container without all three PaaSTA
env keys yields only the skip warning and leaves the state untouched
(`continue`).  Otherwise the eight printed lines of the cycle are produced:
`t` first advances by the smartstack grace (so the kill happens at
`st.t + smartstack_grace_sleep`), the previous kill time of the key is read
BEFORE the new kill is appended, and the final inter-container sleep is
stretched when the gap from the previous kill is below `min_kill_interval`. -/
def drain_step (fs : SmartstackFS) (st : DrainState) (c : Container) :
    Option (List DrainAction × DrainState) :=
  match docker_env_to_dict c.env with
  | none => none
  | some environment =>
    match assoc_get environment PAASTA_SERVICE,
          assoc_get environment PAASTA_INSTANCE,
          assoc_get environment MARATHON_PORT with
    | some service, some instanceName, some marathon_port =>
      let proxy_port := get_proxy_port fs service instanceName
      let t1 := st.t + smartstack_grace_sleep
      let last_killed_t := get_last_killed st.drained service instanceName
      let sleep_amount :=
        if t1 - last_killed_t < min_kill_interval then
          min_kill_interval - (t1 - last_killed_t) + between_containers_grace_sleep
        else between_containers_grace_sleep
      some ([DrainAction.header service instanceName,
             DrainAction.info c.cid service instanceName proxy_port marathon_port,
             DrainAction.routeOut marathon_port service instanceName hadown_expire_in_seconds,
             DrainAction.sleep smartstack_grace_sleep,
             DrainAction.kill c.cid,
             DrainAction.routeIn marathon_port service instanceName,
             DrainAction.sleep sleep_amount,
             DrainAction.blank],
            ⟨t1 + sleep_amount, st.drained ++ [⟨t1, service, instanceName⟩]⟩)
    | _, _, _ => some ([DrainAction.warnSkip c.cid], st)

/-- The whole `for container_id in running_container_ids` loop: thread the
state through `drain_step` and concatenate the per-container output. -/
def drain_loop (fs : SmartstackFS) : DrainState → List Container →
    Option (List DrainAction × DrainState)
  | st, [] => some ([], st)
  | st, c :: rest =>
    match drain_step fs st c with
    | none => none
    | some (acts, st2) =>
      match drain_loop fs st2 rest with
      | none => none
      | some (acts2, st3) => some (acts ++ acts2, st3)

/-- The container-id validation loop of `main` (source lines 125-128): any
line whose length is not 12 aborts with exit status 1, otherwise the
`rstrip`-ed line is collected. -/
def check_container_ids : List (List Char) → Except Int (List (List Char))
  | [] => Except.ok []
  | line :: rest =>
    if line.length ≠ 12 then Except.error 1
    else
      match check_container_ids rest with
      | Except.error k => Except.error k
      | Except.ok ids => Except.ok (rstrip line :: ids)

/-- The discovery prefix of `main` (source lines 116-128): `condquit` exits
with the listing command's status when it is non-zero; then the output is
split on newlines (note `"".split("\n") = [""]`, so the `len(lines) == 0`
abort can never fire) and every line must look like a 12-character container
id. -/
def parse_container_ids (rc : Int) (output : List Char) :
    Except Int (List (List Char)) :=
  if rc ≠ 0 then Except.error rc
  else
    let lines := splitOnChar '\n' output
    if lines.length = 0 then Except.error 1
    else check_container_ids lines

/-- `main` end to end: discovery, shuffle (an arbitrary reordering `order`),
inspect (`envOf`), then the drain loop from `t = 0` and an empty history.
An `Except.error` is a non-zero process exit that produces no plan at all;
the `none` from `drain_loop` (malformed env entry) is the interpreter dying
on an uncaught exception, also exit status 1. -/
def main_model (fs : SmartstackFS) (envOf : List Char → List (List Char))
    (order : List (List Char) → List (List Char)) (rc : Int) (output : List Char) :
    Except Int (List DrainAction) :=
  match parse_container_ids rc output with
  | Except.error k => Except.error k
  | Except.ok ids =>
    match drain_loop fs ⟨0, []⟩ ((order ids).map fun cid => ⟨cid, envOf cid⟩) with
    | none => Except.error 1
    | some (acts, _) => Except.ok acts

/-- Total of the durations of the `sleep` lines in a plan. -/
def sum_sleeps : List DrainAction → Int
  | [] => 0
  | DrainAction.sleep n :: rest => n + sum_sleeps rest
  | _ :: rest => sum_sleeps rest

/-! ### Concrete inputs used by counterexamples and witnesses -/

/-- A host with no smartstack YAML files: every proxy-port lookup misses. -/
def fsNone : SmartstackFS := fun _ => none

def svcList : List Char := "svc".toList
def instList : List Char := "main".toList
def portList : List Char := "31045".toList

/-- A well-formed PaaSTA container environment. -/
def envGood : List (List Char) :=
  ["PAASTA_SERVICE=svc".toList, "PAASTA_INSTANCE=main".toList, "MARATHON_PORT=31045".toList]

/-- `envGood` as the dict `docker_env_to_dict` builds from it. -/
def envDict : List (List Char × List Char) :=
  [(MARATHON_PORT, portList), (PAASTA_INSTANCE, instList), (PAASTA_SERVICE, svcList)]

/-- An environment missing `MARATHON_PORT`. -/
def envBad : List (List Char) :=
  ["PAASTA_SERVICE=svc".toList, "PAASTA_INSTANCE=main".toList]

def envDictBad : List (List Char × List Char) :=
  [(PAASTA_INSTANCE, instList), (PAASTA_SERVICE, svcList)]

def containerA : Container := ⟨"aaaaaaaaaaaa".toList, envGood⟩
def containerB : Container := ⟨"bbbbbbbbbbbb".toList, envGood⟩
def containerBad : Container := ⟨"cccccccccccc".toList, envBad⟩

/-- The state `main` starts its loop from: `t = 0`, empty history. -/
def drainInit : DrainState := ⟨0, []⟩

/-- The plan lines the model prints for `containerA` from `drainInit`. -/
def cycleA : List DrainAction :=
  [DrainAction.header svcList instList,
   DrainAction.info containerA.cid svcList instList none portList,
   DrainAction.routeOut portList svcList instList hadown_expire_in_seconds,
   DrainAction.sleep 10,
   DrainAction.kill containerA.cid,
   DrainAction.routeIn portList svcList instList,
   DrainAction.sleep 10,
   DrainAction.blank]

/-- The plan lines for `containerB` right after `containerA`'s cycle: the
inter-container sleep is stretched to 50 because the kill at `t = 30` is only
20 virtual seconds after the kill at `t = 10`. -/
def cycleB : List DrainAction :=
  [DrainAction.header svcList instList,
   DrainAction.info containerB.cid svcList instList none portList,
   DrainAction.routeOut portList svcList instList hadown_expire_in_seconds,
   DrainAction.sleep 10,
   DrainAction.kill containerB.cid,
   DrainAction.routeIn portList svcList instList,
   DrainAction.sleep 50,
   DrainAction.blank]

def stJustA : DrainState := ⟨20, [⟨10, svcList, instList⟩]⟩

def stFinalAB : DrainState := ⟨80, [⟨10, svcList, instList⟩, ⟨30, svcList, instList⟩]⟩

def envOfEmpty : List Char → List (List Char) := fun _ => []

def orderId : List (List Char) → List (List Char) := fun ids => ids

/-! ### Helper lemmas -/

/-- The value the claim language assigns to a key of an env array: the suffix
after the first `=` of the LAST entry whose prefix before its first `=` is
`k` (later entries override earlier ones). -/
def lastValFor (k : List Char) : List (List Char) → Option (List Char)
  | [] => none
  | kv :: rest =>
    match lastValFor k rest with
    | some v => some v
    | none =>
      match splitFirstEq kv with
      | some kv2 => if kv2.1 = k then some kv2.2 else none
      | none => none

lemma splitFirstEq_eq_some {s k v : List Char} (h : splitFirstEq s = some (k, v)) :
    s = k ++ '=' :: v ∧ '=' ∉ k := by
  induction s generalizing k v with
  | nil => simp [splitFirstEq] at h
  | cons c rest ih =>
    by_cases hc : c = '='
    · subst hc
      simp [splitFirstEq] at h
      obtain ⟨rfl, rfl⟩ := h
      simp
    · rw [splitFirstEq, if_neg hc] at h
      cases hr : splitFirstEq rest with
      | none => rw [hr] at h; simp at h
      | some kv2 =>
        obtain ⟨k2, v2⟩ := kv2
        rw [hr] at h
        simp at h
        obtain ⟨rfl, rfl⟩ := h
        obtain ⟨hrest, hnot⟩ := ih hr
        subst hrest
        refine ⟨rfl, ?_⟩
        intro hmem
        rcases List.mem_cons.mp hmem with h1 | h1
        · exact hc h1.symm
        · exact hnot h1

lemma splitFirstEq_isSome {s : List Char} (h : '=' ∈ s) :
    ∃ kv, splitFirstEq s = some kv := by
  induction s with
  | nil => simp at h
  | cons c rest ih =>
    by_cases hc : c = '='
    · subst hc; exact ⟨([], rest), by simp [splitFirstEq]⟩
    · have hmem : '=' ∈ rest := by
        rcases List.mem_cons.mp h with h1 | h1
        · exact absurd h1.symm hc
        · exact h1
      obtain ⟨⟨k2, v2⟩, hr⟩ := ih hmem
      exact ⟨(c :: k2, v2), by rw [splitFirstEq, if_neg hc, hr]⟩

lemma splitFirstEq_mem_of_some {s : List Char} {kv : List Char × List Char}
    (h : splitFirstEq s = some kv) : '=' ∈ s := by
  obtain ⟨hs, _⟩ := splitFirstEq_eq_some (s := s) (k := kv.1) (v := kv.2) (by simpa using h)
  subst hs
  simp

lemma docker_env_to_dict_go_some {arr : List (List Char)} :
    ∀ acc, (∀ kv ∈ arr, '=' ∈ kv) →
      ∃ env, docker_env_to_dict_go acc arr = some env := by
  induction arr with
  | nil => intro acc _; exact ⟨acc, rfl⟩
  | cons kv rest ih =>
    intro acc hall
    obtain ⟨⟨k, v⟩, hkv⟩ := splitFirstEq_isSome (hall kv (by simp))
    obtain ⟨env, henv⟩ := ih ((k, v) :: acc) (fun kv2 h2 => hall kv2 (by simp [h2]))
    exact ⟨env, by rw [docker_env_to_dict_go, hkv]; exact henv⟩

lemma docker_env_to_dict_go_lookup {k : List Char} {arr : List (List Char)} :
    ∀ {acc env}, docker_env_to_dict_go acc arr = some env →
      assoc_get env k =
        match lastValFor k arr with
        | some v => some v
        | none => assoc_get acc k := by
  induction arr with
  | nil =>
    intro acc env h
    simp [docker_env_to_dict_go] at h
    subst h
    simp [lastValFor]
  | cons kv rest ih =>
    intro acc env h
    rw [docker_env_to_dict_go] at h
    cases hkv : splitFirstEq kv with
    | none => rw [hkv] at h; simp at h
    | some kv2 =>
      obtain ⟨k2, v2⟩ := kv2
      rw [hkv] at h
      have := ih h
      rw [this, lastValFor]
      cases lastValFor k rest with
      | some v => rfl
      | none =>
        simp only [hkv, assoc_get]
        by_cases hk : k2 = k
        · simp [hk]
        · simp [hk]

lemma docker_env_to_dict_go_none {arr : List (List Char)} :
    ∀ acc, (∃ kv ∈ arr, '=' ∉ kv) → docker_env_to_dict_go acc arr = none := by
  induction arr with
  | nil => intro acc h; simp at h
  | cons kv rest ih =>
    intro acc ⟨bad, hmem, hbad⟩
    rw [docker_env_to_dict_go]
    cases hkv : splitFirstEq kv with
    | none => rfl
    | some kv2 =>
      rcases List.mem_cons.mp hmem with h1 | h1
      · subst h1
        exact absurd (splitFirstEq_mem_of_some hkv) hbad
      · exact ih _ ⟨bad, h1, hbad⟩

/-- C10: `docker_env_to_dict` splits every entry at its FIRST `=` (so the key
contains no `=` and the value keeps any further `=` intact), maps each key to
the value of the last entry carrying it, and fails on any array with an
entry that has no `=` at all. -/
theorem docker_env_to_dict_spec :
    (∀ s k v : List Char, splitFirstEq s = some (k, v) → s = k ++ '=' :: v ∧ '=' ∉ k)
    ∧ (∀ arr : List (List Char), (∀ kv ∈ arr, '=' ∈ kv) →
        ∃ env, docker_env_to_dict arr = some env ∧
          ∀ k, assoc_get env k = lastValFor k arr)
    ∧ (∀ arr : List (List Char), (∃ kv ∈ arr, '=' ∉ kv) →
        docker_env_to_dict arr = none) := by
  refine ⟨fun s k v h => splitFirstEq_eq_some h, fun arr hall => ?_, fun arr hbad => ?_⟩
  · obtain ⟨env, henv⟩ := docker_env_to_dict_go_some ([]) hall
    refine ⟨env, henv, fun k => ?_⟩
    have := docker_env_to_dict_go_lookup (k := k) henv
    rw [this]
    cases lastValFor k arr <;> simp [assoc_get]
  · exact docker_env_to_dict_go_none ([]) hbad

/-- Witness for C10 at a concrete array: a value containing a second `=` is
preserved intact and the later `A=3` overrides the earlier `A=1=2`. -/
theorem docker_env_to_dict_spec_witness :
    ∃ env, docker_env_to_dict ["A=1=2".toList, "A=3".toList] = some env ∧
      ∀ k, assoc_get env k = lastValFor k ["A=1=2".toList, "A=3".toList] :=
  docker_env_to_dict_spec.2.1 ["A=1=2".toList, "A=3".toList] (by decide)

lemma get_last_killed_go_of_forall_ne {s i : List Char} {l : List DrainRec}
    (h : ∀ d ∈ l, ¬(d.service = s ∧ d.instanceName = i)) :
    get_last_killed_go s i l = -1000 := by
  induction l with
  | nil => rfl
  | cons d ds ih =>
    rw [get_last_killed_go, if_neg (h d (by simp))]
    exact ih (fun d2 h2 => h d2 (by simp [h2]))

lemma get_last_killed_go_append {s i : List Char} {l1 l2 : List DrainRec}
    (h : ∀ d ∈ l1, ¬(d.service = s ∧ d.instanceName = i)) :
    get_last_killed_go s i (l1 ++ l2) = get_last_killed_go s i l2 := by
  induction l1 with
  | nil => rfl
  | cons d ds ih =>
    rw [List.cons_append, get_last_killed_go, if_neg (h d (by simp))]
    exact ih (fun d2 h2 => h d2 (by simp [h2]))

/-- C4: `get_last_killed` returns `-1000` for a key with no record, returns
the time of the most recently appended record of the key otherwise, the
sentinel always defeats the cooldown check at any reachable `t ≥ 0`, and so
the first kill of a key gets exactly the base inter-container sleep. -/
theorem get_last_killed_spec :
    (∀ (drained : List DrainRec) (s i : List Char),
        (∀ d ∈ drained, ¬(d.service = s ∧ d.instanceName = i)) →
        get_last_killed drained s i = -1000)
    ∧ (∀ (l1 : List DrainRec) (tk : Int) (s i : List Char) (l2 : List DrainRec),
        (∀ d ∈ l2, ¬(d.service = s ∧ d.instanceName = i)) →
        get_last_killed (l1 ++ ⟨tk, s, i⟩ :: l2) s i = tk)
    ∧ (∀ t : Int, 0 ≤ t → ¬(t - (-1000) < min_kill_interval))
    ∧ (∀ (fs : SmartstackFS) (st : DrainState) (c : Container)
          (environment : List (List Char × List Char)) (service instanceName marathon_port : List Char),
        docker_env_to_dict c.env = some environment →
        assoc_get environment PAASTA_SERVICE = some service →
        assoc_get environment PAASTA_INSTANCE = some instanceName →
        assoc_get environment MARATHON_PORT = some marathon_port →
        (∀ d ∈ st.drained, ¬(d.service = service ∧ d.instanceName = instanceName)) →
        0 ≤ st.t →
        ∃ st2, drain_step fs st c =
          some ([DrainAction.header service instanceName,
                 DrainAction.info c.cid service instanceName (get_proxy_port fs service instanceName) marathon_port,
                 DrainAction.routeOut marathon_port service instanceName hadown_expire_in_seconds,
                 DrainAction.sleep smartstack_grace_sleep,
                 DrainAction.kill c.cid,
                 DrainAction.routeIn marathon_port service instanceName,
                 DrainAction.sleep between_containers_grace_sleep,
                 DrainAction.blank], st2)) := by
  refine ⟨fun drained s i h => ?_, fun l1 tk s i l2 h => ?_, fun t ht => ?_,
    fun fs st c environment service instanceName marathon_port henv hs hi hm hfresh ht => ?_⟩
  · exact get_last_killed_go_of_forall_ne (fun d hd => h d (List.mem_reverse.mp hd))
  · rw [get_last_killed, List.reverse_append, List.reverse_cons, List.append_assoc]
    rw [get_last_killed_go_append (fun d hd => h d (List.mem_reverse.mp hd))]
    rw [List.singleton_append, get_last_killed_go, if_pos ⟨rfl, rfl⟩]
  · rw [min_kill_interval]; omega
  · have hlast : get_last_killed st.drained service instanceName = -1000 :=
      get_last_killed_go_of_forall_ne (fun d hd => hfresh d (List.mem_reverse.mp hd))
    have hcond : ¬(st.t + smartstack_grace_sleep - get_last_killed st.drained service instanceName
        < min_kill_interval) := by
      rw [hlast, smartstack_grace_sleep, min_kill_interval]; omega
    refine ⟨⟨st.t + smartstack_grace_sleep + between_containers_grace_sleep,
      st.drained ++ [⟨st.t + smartstack_grace_sleep, service, instanceName⟩]⟩, ?_⟩
    simp only [drain_step, henv, hs, hi, hm, if_neg hcond]

/-- Witness for C4: a history holding only other keys yields the sentinel,
the most recent record of a key is found, the sentinel defeats the cooldown
check at `t = 0`, and the first kill of `svc.main` gets the base sleep. -/
theorem get_last_killed_spec_witness :
    get_last_killed ([] ++ ⟨3, svcList, instList⟩ :: [⟨7, "other".toList, instList⟩])
      svcList instList = 3 :=
  get_last_killed_spec.2.1 [] 3 svcList instList [⟨7, "other".toList, instList⟩] (by decide)

/-- C3: for every processed container, with `t` the virtual time at its kill
(`st.t` plus the smartstack grace) and the last kill of its key looked up in
the history as it stands BEFORE the new kill is appended, the cycle's final
sleep is `min_kill_interval - gap + between_containers_grace_sleep` when
`gap < min_kill_interval` and the base grace otherwise; the new kill is
recorded at exactly that `t`. -/
theorem drain_step_cooldown_sleep_formula (fs : SmartstackFS) (st : DrainState)
    (c : Container) (environment : List (List Char × List Char))
    (service instanceName marathon_port : List Char)
    (henv : docker_env_to_dict c.env = some environment)
    (hs : assoc_get environment PAASTA_SERVICE = some service)
    (hi : assoc_get environment PAASTA_INSTANCE = some instanceName)
    (hm : assoc_get environment MARATHON_PORT = some marathon_port) :
    ∃ acts st2, drain_step fs st c = some (acts, st2) ∧
      st2.drained = st.drained ++ [⟨st.t + smartstack_grace_sleep, service, instanceName⟩] ∧
      acts[6]? = some (DrainAction.sleep
        (if st.t + smartstack_grace_sleep - get_last_killed st.drained service instanceName
            < min_kill_interval then
          min_kill_interval
            - (st.t + smartstack_grace_sleep - get_last_killed st.drained service instanceName)
            + between_containers_grace_sleep
         else between_containers_grace_sleep)) := by
  simp only [drain_step, henv, hs, hi, hm]
  exact ⟨_, _, rfl, rfl, rfl⟩

/-- Witness for C3: `containerA` from the initial state; the gap to the
sentinel is huge, so the emitted sleep is the base 10. -/
theorem drain_step_cooldown_sleep_formula_witness :
    ∃ acts st2, drain_step fsNone drainInit containerA = some (acts, st2) ∧
      st2.drained = drainInit.drained
        ++ [⟨drainInit.t + smartstack_grace_sleep, svcList, instList⟩] ∧
      acts[6]? = some (DrainAction.sleep
        (if drainInit.t + smartstack_grace_sleep
            - get_last_killed drainInit.drained svcList instList < min_kill_interval then
          min_kill_interval
            - (drainInit.t + smartstack_grace_sleep
                - get_last_killed drainInit.drained svcList instList)
            + between_containers_grace_sleep
         else between_containers_grace_sleep)) :=
  drain_step_cooldown_sleep_formula fsNone drainInit containerA envDict
    svcList instList portList (by decide) (by decide) (by decide) (by decide)

/-- Counterexample to C5 as stated: with no smartstack entry at all
(`get_proxy_port` misses), the cycle for `containerA` still CONTAINS the
route-out and route-in commands — they are built from `MARATHON_PORT`, so
nothing is omitted. -/
theorem proxy_port_none_still_emits_routing_commands :
    get_proxy_port fsNone svcList instList = none
    ∧ drain_loop fsNone drainInit [containerA] = some (cycleA, stJustA)
    ∧ DrainAction.routeOut portList svcList instList hadown_expire_in_seconds ∈ cycleA
    ∧ DrainAction.routeIn portList svcList instList ∈ cycleA := by
  refine ⟨rfl, by decide, by decide, by decide⟩

/-- C5 as amended: when the proxy-port lookup misses, the container's cycle
still contains the route-out, kill, route-in and sleep actions (route-out and
route-in use `MARATHON_PORT`); the missing proxy port shows up only as `none`
in the informational comment line. -/
theorem drain_step_proxy_port_none_cycle (fs : SmartstackFS) (st : DrainState)
    (c : Container) (environment : List (List Char × List Char))
    (service instanceName marathon_port : List Char)
    (henv : docker_env_to_dict c.env = some environment)
    (hs : assoc_get environment PAASTA_SERVICE = some service)
    (hi : assoc_get environment PAASTA_INSTANCE = some instanceName)
    (hm : assoc_get environment MARATHON_PORT = some marathon_port)
    (hpp : get_proxy_port fs service instanceName = none) :
    ∃ acts st2, drain_step fs st c = some (acts, st2) ∧
      DrainAction.routeOut marathon_port service instanceName hadown_expire_in_seconds ∈ acts ∧
      DrainAction.kill c.cid ∈ acts ∧
      DrainAction.routeIn marathon_port service instanceName ∈ acts ∧
      DrainAction.sleep smartstack_grace_sleep ∈ acts ∧
      DrainAction.info c.cid service instanceName none marathon_port ∈ acts := by
  simp only [drain_step, henv, hs, hi, hm, hpp]
  refine ⟨_, _, rfl, by simp, by simp, by simp, by simp, by simp⟩

/-- Witness for the amended C5 at `containerA` on a host with no smartstack
files. -/
theorem drain_step_proxy_port_none_cycle_witness :
    ∃ acts st2, drain_step fsNone drainInit containerA = some (acts, st2) ∧
      DrainAction.routeOut portList svcList instList hadown_expire_in_seconds ∈ acts ∧
      DrainAction.kill containerA.cid ∈ acts ∧
      DrainAction.routeIn portList svcList instList ∈ acts ∧
      DrainAction.sleep smartstack_grace_sleep ∈ acts ∧
      DrainAction.info containerA.cid svcList instList none portList ∈ acts :=
  drain_step_proxy_port_none_cycle fsNone drainInit containerA envDict
    svcList instList portList (by decide) (by decide) (by decide) (by decide) rfl

/-- C6: a container whose environment lacks one of the three PaaSTA keys
produces only the skip warning, leaves the virtual clock and the drain
history untouched, and the loop goes on to process the remaining containers
exactly as if the skipped container were not there (warning prepended). -/
theorem unmanaged_container_skipped (fs : SmartstackFS) (st : DrainState)
    (c : Container) (rest : List Container)
    (environment : List (List Char × List Char))
    (henv : docker_env_to_dict c.env = some environment)
    (hmiss : has_all_paasta_env environment = false) :
    drain_step fs st c = some ([DrainAction.warnSkip c.cid], st)
    ∧ drain_loop fs st (c :: rest) =
        (drain_loop fs st rest).map
          (fun p => (DrainAction.warnSkip c.cid :: p.1, p.2)) := by
  have hstep : drain_step fs st c = some ([DrainAction.warnSkip c.cid], st) := by
    simp only [drain_step, henv]
    split
    · rename_i service instanceName marathon_port hs hi hm
      rw [has_all_paasta_env, hs, hi, hm] at hmiss
      simp at hmiss
    · rfl
  refine ⟨hstep, ?_⟩
  rw [drain_loop, hstep]
  cases h2 : drain_loop fs st rest with
  | none => simp [h2]
  | some p => obtain ⟨acts2, st3⟩ := p; simp [h2]

/-- Witness for C6: `containerBad` (no `MARATHON_PORT`) is skipped with a
warning, state untouched, and `containerA` is still processed. -/
theorem unmanaged_container_skipped_witness :
    drain_step fsNone drainInit containerBad
      = some ([DrainAction.warnSkip containerBad.cid], drainInit)
    ∧ drain_loop fsNone drainInit (containerBad :: [containerA]) =
        (drain_loop fsNone drainInit [containerA]).map
          (fun p => (DrainAction.warnSkip containerBad.cid :: p.1, p.2)) :=
  unmanaged_container_skipped fsNone drainInit containerBad [containerA]
    envDictBad (by decide) (by decide)

lemma sum_sleeps_append (l1 l2 : List DrainAction) :
    sum_sleeps (l1 ++ l2) = sum_sleeps l1 + sum_sleeps l2 := by
  induction l1 with
  | nil => simp [sum_sleeps]
  | cons a l ih => cases a <;> simp [sum_sleeps, ih, add_assoc]

lemma drain_step_clock {fs : SmartstackFS} {st : DrainState} {c : Container}
    {acts : List DrainAction} {st2 : DrainState}
    (h : drain_step fs st c = some (acts, st2)) :
    st2.t = st.t + sum_sleeps acts
    ∧ (∀ n : Int, DrainAction.sleep n ∈ acts → 0 < n)
    ∧ st.t ≤ st2.t := by
  rw [drain_step] at h
  split at h
  · exact absurd h (by simp)
  · split at h
    · rename_i service instanceName marathon_port hs hi hm
      simp only [Option.some.injEq, Prod.mk.injEq] at h
      obtain ⟨rfl, rfl⟩ := h
      refine ⟨?_, ?_, ?_⟩
      · simp [sum_sleeps]
        omega
      · intro n hn
        simp only [List.mem_cons, List.not_mem_nil, or_false] at hn
        rcases hn with h1 | h1 | h1 | h1 | h1 | h1 | h1 | h1
        · exact absurd h1 (by simp)
        · exact absurd h1 (by simp)
        · exact absurd h1 (by simp)
        · injection h1 with h2
          subst h2
          rw [smartstack_grace_sleep]
          omega
        · exact absurd h1 (by simp)
        · exact absurd h1 (by simp)
        · injection h1 with h2
          subst h2
          split
          · rename_i hlt
            simp only [min_kill_interval, between_containers_grace_sleep,
              smartstack_grace_sleep] at hlt ⊢
            omega
          · rw [between_containers_grace_sleep]
            omega
        · exact absurd h1 (by simp)
      · simp only [DrainState.t]
        split
        · rename_i hlt
          simp only [min_kill_interval, between_containers_grace_sleep,
            smartstack_grace_sleep] at hlt ⊢
          omega
        · simp only [between_containers_grace_sleep, smartstack_grace_sleep]
          omega
    · simp only [Option.some.injEq, Prod.mk.injEq] at h
      obtain ⟨rfl, rfl⟩ := h
      exact ⟨by simp [sum_sleeps], fun n hn => by simp at hn, le_refl _⟩

/-- C8: over any run segment of the loop, the virtual clock never reads the
wall clock — it moves from `st.t` to exactly `st.t` plus the total of the
emitted sleep durations (it is advanced only when a sleep is emitted), every
emitted sleep duration is positive, and hence `t` is monotonically
non-decreasing.  `main` starts the loop from `drainInit`, whose `t` is 0. -/
theorem virtual_clock_advances_only_by_sleeps (fs : SmartstackFS)
    (st : DrainState) (cs : List Container) (acts : List DrainAction)
    (st2 : DrainState) (h : drain_loop fs st cs = some (acts, st2)) :
    st2.t = st.t + sum_sleeps acts
    ∧ (∀ n : Int, DrainAction.sleep n ∈ acts → 0 < n)
    ∧ st.t ≤ st2.t := by
  induction cs generalizing st acts st2 with
  | nil =>
    simp only [drain_loop, Option.some.injEq, Prod.mk.injEq] at h
    obtain ⟨rfl, rfl⟩ := h
    exact ⟨by simp [sum_sleeps], fun n hn => by simp at hn, le_refl _⟩
  | cons c rest ih =>
    rw [drain_loop] at h
    split at h
    · exact absurd h (by simp)
    · rename_i p acts1 stm hstep
      split at h
      · exact absurd h (by simp)
      · rename_i p2 acts2 st3 hloop
        simp only [Option.some.injEq, Prod.mk.injEq] at h
        obtain ⟨rfl, rfl⟩ := h
        obtain ⟨he1, hp1, hle1⟩ := drain_step_clock hstep
        obtain ⟨he2, hp2, hle2⟩ := ih _ _ _ hloop
        refine ⟨?_, ?_, by omega⟩
        · rw [sum_sleeps_append]
          omega
        · intro n hn
          rcases List.mem_append.mp hn with h1 | h1
          · exact hp1 n h1
          · exact hp2 n h1

/-- Witness for C8: the two-container run from `drainInit` ends at `t = 80`,
the total of its sleeps `10 + 10 + 10 + 50`, all positive. -/
theorem virtual_clock_advances_only_by_sleeps_witness :
    stFinalAB.t = drainInit.t + sum_sleeps (cycleA ++ cycleB)
    ∧ (∀ n : Int, DrainAction.sleep n ∈ cycleA ++ cycleB → 0 < n)
    ∧ drainInit.t ≤ stFinalAB.t :=
  virtual_clock_advances_only_by_sleeps fsNone drainInit [containerA, containerB]
    (cycleA ++ cycleB) stFinalAB (by decide)

/-- Every `kill` line in a plan is immediately followed (next line, nothing
in between) by a `routeIn` line. -/
def routeInAfterKill (acts : List DrainAction) : Prop :=
  ∀ (j : Nat) (cid : List Char), acts[j]? = some (DrainAction.kill cid) →
    ∃ mp s i, acts[j + 1]? = some (DrainAction.routeIn mp s i)

lemma routeInAfterKill_append {l1 l2 : List DrainAction}
    (h1 : routeInAfterKill l1) (h2 : routeInAfterKill l2) :
    routeInAfterKill (l1 ++ l2) := by
  intro j cid hj
  by_cases hlt : j < l1.length
  · rw [List.getElem?_append_left hlt] at hj
    obtain ⟨mp, s, i, hnext⟩ := h1 j cid hj
    have hlt2 : j + 1 < l1.length := by
      by_contra hge
      rw [List.getElem?_eq_none (by omega)] at hnext
      exact Option.noConfusion hnext
    exact ⟨mp, s, i, by rw [List.getElem?_append_left hlt2]; exact hnext⟩
  · push_neg at hlt
    rw [List.getElem?_append_right hlt] at hj
    obtain ⟨mp, s, i, hnext⟩ := h2 _ cid hj
    refine ⟨mp, s, i, ?_⟩
    rw [List.getElem?_append_right (by omega),
      show j + 1 - l1.length = j - l1.length + 1 by omega]
    exact hnext

lemma drain_step_routeInAfterKill {fs : SmartstackFS} {st : DrainState}
    {c : Container} {acts : List DrainAction} {st2 : DrainState}
    (h : drain_step fs st c = some (acts, st2)) : routeInAfterKill acts := by
  rw [drain_step] at h
  split at h
  · exact absurd h (by simp)
  · split at h
    · rename_i service instanceName marathon_port hs hi hm
      simp only [Option.some.injEq, Prod.mk.injEq] at h
      obtain ⟨rfl, rfl⟩ := h
      intro j cid hj
      match j with
      | 0 => exact absurd hj (by simp)
      | 1 => exact absurd hj (by simp)
      | 2 => exact absurd hj (by simp)
      | 3 => exact absurd hj (by simp)
      | 4 => exact ⟨marathon_port, service, instanceName, rfl⟩
      | 5 => exact absurd hj (by simp)
      | 6 => exact absurd hj (by simp)
      | 7 => exact absurd hj (by simp)
      | n + 8 => exact absurd hj (by simp)
    · simp only [Option.some.injEq, Prod.mk.injEq] at h
      obtain ⟨rfl, rfl⟩ := h
      intro j cid hj
      match j with
      | 0 => exact absurd hj (by simp)
      | n + 1 => exact absurd hj (by simp)

/-- C9: in any timeline the loop generates, every container's `kill` action
is immediately followed by its `routeIn` (restore routing) action, with no
sleep or other action in between — even though the container is already
dead at that point. -/
theorem route_in_immediately_after_kill (fs : SmartstackFS) (st : DrainState)
    (cs : List Container) (acts : List DrainAction) (st2 : DrainState)
    (h : drain_loop fs st cs = some (acts, st2)) :
    routeInAfterKill acts := by
  induction cs generalizing st acts st2 with
  | nil =>
    simp only [drain_loop, Option.some.injEq, Prod.mk.injEq] at h
    obtain ⟨rfl, rfl⟩ := h
    intro j cid hj
    exact absurd hj (by simp)
  | cons c rest ih =>
    rw [drain_loop] at h
    split at h
    · exact absurd h (by simp)
    · rename_i p acts1 stm hstep
      split at h
      · exact absurd h (by simp)
      · rename_i p2 acts2 st3 hloop
        simp only [Option.some.injEq, Prod.mk.injEq] at h
        obtain ⟨rfl, rfl⟩ := h
        exact routeInAfterKill_append (drain_step_routeInAfterKill hstep) (ih _ _ _ hloop)

/-- Witness for C9: in `containerA`'s concrete cycle the kill at line 4 is
immediately followed by the route-in at line 5. -/
theorem route_in_immediately_after_kill_witness :
    ∃ mp s i, cycleA[4 + 1]? = some (DrainAction.routeIn mp s i) :=
  route_in_immediately_after_kill fsNone drainInit [containerA] cycleA stJustA
    (by decide) 4 containerA.cid (by decide)

/-- C7: when `sudo docker ps -q` exits non-zero the run exits with that
status, and when it succeeds with empty output the run exits with status 1
(the single empty line fails the 12-character container-id check) — in both
cases before any route-out, kill, route-in or sleep action exists, since an
`Except.error` carries no plan at all. -/
theorem discovery_failure_aborts (fs : SmartstackFS)
    (envOf : List Char → List (List Char))
    (order : List (List Char) → List (List Char)) :
    (∀ (rc : Int) (output : List Char), rc ≠ 0 →
      main_model fs envOf order rc output = Except.error rc)
    ∧ main_model fs envOf order 0 [] = Except.error 1
    ∧ (1 : Int) ≠ 0 := by
  refine ⟨fun rc output hrc => ?_, rfl, by decide⟩
  rw [main_model, parse_container_ids, if_pos hrc]

/-- Witness for C7: a listing failure with status 5 exits with status 5. -/
theorem discovery_failure_aborts_witness :
    (5 : Int) ≠ 0 ∧ main_model fsNone envOfEmpty orderId 5 [] = Except.error 5 :=
  ⟨by decide, (discovery_failure_aborts fsNone envOfEmpty orderId).1 5 [] (by decide)⟩

/-- C1 fails on the code (`code_bug`): two containers that are replicas of
the same `(service, instance)` key, drained together from an empty history,
are killed at virtual times 10 and 30 — only 20 virtual seconds apart,
less than `min_kill_interval`.  The stretched sleep (the trailing `sleep 50`
of `cycleB`) comes only AFTER the second kill, because the cooldown is
checked against the PREVIOUS kill after the current one already happened. -/
theorem same_key_kills_scheduled_closer_than_min_interval :
    drain_loop fsNone drainInit [containerA, containerB]
      = some (cycleA ++ cycleB, stFinalAB)
    ∧ stFinalAB.drained = [⟨10, svcList, instList⟩, ⟨30, svcList, instList⟩]
    ∧ (30 : Int) - 10 < min_kill_interval := by
  refine ⟨by decide, rfl, by decide⟩

/-- C2 fails on the code (`code_bug`): in the exact two-container scenario
the first kill is indeed at `t = 10` (first record of `stFinalAB.drained`),
but the inter-container sleep emitted between the first cycle and the second
cycle is the base `sleep 10` — not 70 — because `get_last_killed` is called
on the still-empty history before the first kill is recorded, so the gap is
`10 - (-1000)`, comfortably above `min_kill_interval`. -/
theorem two_container_scenario_first_inter_sleep_is_ten :
    drain_loop fsNone drainInit [containerA, containerB]
      = some (cycleA ++ cycleB, stFinalAB)
    ∧ stFinalAB.drained[0]? = some ⟨10, svcList, instList⟩
    ∧ (cycleA ++ cycleB)[6]? = some (DrainAction.sleep between_containers_grace_sleep)
    ∧ (cycleA ++ cycleB)[6]? ≠ some (DrainAction.sleep 70) := by
  refine ⟨by decide, by decide, by decide, by decide⟩
